import Mathlib

/-!
Verification development for the sds-generator repository (an MCP/CLI tool that
orchestrates LLM calls to produce software design specifications).

The JavaScript sources are shallowly embedded:

* `Json` models the values produced by the platform `JSON.parse`; `jsonParse`
  models `JSON.parse` itself (strict RFC-8259 grammar: no trailing commas, no
  comments, no raw control characters in strings, duplicate object keys keep
  the first position with the last value).  JSON numbers are kept exactly as
  `mantissa * 10 ^ exponent`; the claims under study never exercise float
  rounding.
* The three `parseJSONFromResponse` variants in the repository are embedded
  separately (`mcpParseJSONFromResponse` from src/mcp-server.js,
  `p2ParseJSONFromResponse` from src/unnamed/part_002, and
  `sdsParseJSONFromResponse` from src/sds.js), with the regexes they use
  hand-compiled to total functions on character lists.
* Effects: provider calls are oracle parameters (`String → Except JsError
  String`, the outcome of `callAI` for a given prompt), timers are ignored
  (they only delay), timestamps are string parameters, and the stdout of the
  RPC layer is modelled as a list of emitted envelopes.  Rendering helpers
  (`generateMarkdownWithLanguage` and friends) only build display text and are
  out of the core per the specification; envelope payload text is abstracted.
-/

/-- A JSON number, exactly: the value is `mantissa * 10 ^ exponent10`. -/
structure JNum where
  mantissa : Int
  exponent10 : Int
deriving Repr

/-- The result values of the platform `JSON.parse`. -/
inductive Json where
  | null
  | bool (b : Bool)
  | num (n : JNum)
  | str (s : String)
  | arr (elems : List Json)
  | obj (members : List (String × Json))

/-- Shorthand for integer-valued JSON numbers (all concrete inputs below). -/
def Json.int (i : Int) : Json := Json.num ⟨i, 0⟩

/-- The curly and square bracket characters, used instead of literals. -/
def lcurly : Char := Char.ofNat 123

def rcurly : Char := Char.ofNat 125

def lsquare : Char := Char.ofNat 91

def rsquare : Char := Char.ofNat 93

/-- Whitespace accepted between JSON tokens (RFC 8259), by code point:
space, tab, line feed, carriage return. -/
def jsonWs (c : Char) : Bool :=
  c.toNat == 32 || c.toNat == 9 || c.toNat == 10 || c.toNat == 13

/-- Whitespace of the JavaScript `\s` class and of `String.prototype.trim`
(restricted to its ASCII members, adding vertical tab and form feed; the
sources only ever meet these). -/
def jsWs (c : Char) : Bool := jsonWs c || c.toNat == 11 || c.toNat == 12

def skipJsonWs (cs : List Char) : List Char := cs.dropWhile (fun c => jsonWs c)

def isDigitCh (c : Char) : Bool := '0' ≤ c && c ≤ '9'

/-- Read a maximal digit run, accumulating its value and length. -/
def grabDigits : Nat → Nat → List Char → Nat × Nat × List Char
  | acc, n, c :: rest =>
    if isDigitCh c then grabDigits (acc * 10 + (c.toNat - 48)) (n + 1) rest
    else (acc, n, c :: rest)
  | acc, n, [] => (acc, n, [])

/-- Value of a hexadecimal digit, by code point (48-57, 97-102, 65-70). -/
def hexDigitVal (c : Char) : Option Nat :=
  let n := c.toNat
  if 48 ≤ n && n ≤ 57 then some (n - 48)
  else if 97 ≤ n && n ≤ 102 then some (n - 87)
  else if 65 ≤ n && n ≤ 70 then some (n - 55)
  else none

/-- The table of single-character JSON string escapes. -/
def escapePairs : List (Char × Char) :=
  [('"', '"'), ('\\', '\\'), ('/', '/'), ('n', '\n'), ('r', '\r'), ('t', '\t'),
   ('b', Char.ofNat 8), ('f', Char.ofNat 12)]

def unescapeCh (c : Char) : Option Char :=
  (escapePairs.find? fun p => p.1 == c).map fun p => p.2

/-- JSON string body after the opening quote.  Raw control characters are
rejected, as `JSON.parse` rejects them. -/
def jsonStrAux (acc : List Char) : List Char → Option (String × List Char)
  | '"' :: rest => some (String.mk acc.reverse, rest)
  | '\\' :: 'u' :: a :: b :: c :: d :: rest =>
    (match hexDigitVal a, hexDigitVal b, hexDigitVal c, hexDigitVal d with
     | some va, some vb, some vc, some vd =>
       jsonStrAux (Char.ofNat (((va * 16 + vb) * 16 + vc) * 16 + vd) :: acc) rest
     | _, _, _, _ => none)
  | '\\' :: e :: rest =>
    (match unescapeCh e with
     | some ch => jsonStrAux (ch :: acc) rest
     | none => none)
  | c :: rest => if c.toNat < 32 then none else jsonStrAux (c :: acc) rest
  | [] => none

/-- JSON number: `-? (0 | [1-9][0-9]*) (\. [0-9]+)? ([eE] [+-]? [0-9]+)?`,
accumulated numerically (`JSON.parse` rejects redundant leading zeros and
dangling fraction/exponent parts). -/
def jsonNum (cs : List Char) : Option (JNum × List Char) :=
  let (neg, cs1) := if cs.headD ' ' == '-' then (true, cs.drop 1) else (false, cs)
  let (iv, ic, cs2) := grabDigits 0 0 cs1
  if ic == 0 then none
  else if ic > 1 && cs1.headD ' ' == '0' then none
  else
    let fracStep : Option (Nat × Nat × List Char) :=
      if cs2.headD ' ' == '.' then
        let (fv, fc, r) := grabDigits 0 0 (cs2.drop 1)
        if fc == 0 then none else some (fv, fc, r)
      else some (0, 0, cs2)
    match fracStep with
    | none => none
    | some (fv, fc, cs3) =>
      let expStep : Option (Int × List Char) :=
        if cs3.headD ' ' == 'e' || cs3.headD ' ' == 'E' then
          let r0 := cs3.drop 1
          let sgn : Int := if r0.headD ' ' == '-' then -1 else 1
          let r1 := if r0.headD ' ' == '-' || r0.headD ' ' == '+' then r0.drop 1 else r0
          let (ev, ec, r2) := grabDigits 0 0 r1
          if ec == 0 then none else some (sgn * (ev : Int), r2)
        else some (0, cs3)
      match expStep with
      | none => none
      | some (e, cs4) =>
        let mag : Int := ((iv * 10 ^ fc + fv : Nat) : Int)
        some (⟨(if neg then -1 else 1) * mag, e - (fc : Int)⟩, cs4)

/-- First value bound to a key in an object member list. -/
def objFind (ms : List (String × Json)) (k : String) : Option Json :=
  match ms.find? (fun p => p.1 == k) with
  | some p => some p.2
  | none => none

/-- Prepend a member under `JSON.parse` duplicate-key semantics (the members to
the right were parsed later): the first occurrence keeps its position, the last
value wins, so a later binding of the same key absorbs this one. -/
def objInsert (k : String) (v : Json) (ms : List (String × Json)) : List (String × Json) :=
  match objFind ms k with
  | some v2 => (k, v2) :: ms.filter (fun p => p.1 != k)
  | none => (k, v) :: ms

mutual

def jsonVal : Nat → List Char → Option (Json × List Char)
  | 0, _ => none
  | fuel + 1, cs =>
    match skipJsonWs cs with
    | 'n' :: 'u' :: 'l' :: 'l' :: r => some (Json.null, r)
    | 't' :: 'r' :: 'u' :: 'e' :: r => some (Json.bool true, r)
    | 'f' :: 'a' :: 'l' :: 's' :: 'e' :: r => some (Json.bool false, r)
    | '"' :: r =>
      (match jsonStrAux [] r with
       | some (s, r2) => some (Json.str s, r2)
       | none => none)
    | c :: r =>
      if c == lsquare then
        match skipJsonWs r with
        | c2 :: r2 =>
          if c2 == rsquare then some (Json.arr [], r2)
          else
            match jsonElems fuel (c2 :: r2) with
            | some (es, r3) => some (Json.arr es, r3)
            | none => none
        | [] => none
      else if c == lcurly then
        match skipJsonWs r with
        | c2 :: r2 =>
          if c2 == rcurly then some (Json.obj [], r2)
          else
            match jsonMembers fuel (c2 :: r2) with
            | some (ms, r3) => some (Json.obj ms, r3)
            | none => none
        | [] => none
      else if c == '-' || isDigitCh c then
        match jsonNum (c :: r) with
        | some (n, r2) => some (Json.num n, r2)
        | none => none
      else none
    | [] => none

def jsonElems : Nat → List Char → Option (List Json × List Char)
  | 0, _ => none
  | fuel + 1, cs =>
    match jsonVal fuel cs with
    | none => none
    | some (v, r) =>
      match skipJsonWs r with
      | c :: r2 =>
        if c == ',' then
          match jsonElems fuel r2 with
          | some (vs, r3) => some (v :: vs, r3)
          | none => none
        else if c == rsquare then some ([v], r2)
        else none
      | [] => none

def jsonMembers : Nat → List Char → Option (List (String × Json) × List Char)
  | 0, _ => none
  | fuel + 1, cs =>
    match skipJsonWs cs with
    | '"' :: r =>
      (match jsonStrAux [] r with
       | none => none
       | some (k, r1) =>
         match skipJsonWs r1 with
         | ':' :: r2 =>
           (match jsonVal fuel r2 with
            | none => none
            | some (v, r3) =>
              match skipJsonWs r3 with
              | c :: r4 =>
                if c == ',' then
                  match jsonMembers fuel r4 with
                  | some (ms, r5) => some (objInsert k v ms, r5)
                  | none => none
                else if c == rcurly then some ([(k, v)], r4)
                else none
              | [] => none)
         | _ => none)
    | _ => none

end

/-- Model of the platform `JSON.parse`: a complete document with only
whitespace around it. -/
def jsonParse (s : String) : Option Json :=
  let cs := s.data
  match jsonVal (2 * cs.length + 2) cs with
  | some (v, r) => if (skipJsonWs r).isEmpty then some v else none
  | none => none

example : jsonParse "[1, 2]" = some (Json.arr [Json.int 1, Json.int 2]) := rfl
example : jsonParse " \x7b\"a\": -1\x7d " = some (Json.obj [("a", Json.int (-1))]) := rfl
example : jsonParse "\x7b\"a\": 1,\x7d" = none := rfl
example : jsonParse "1.5e2" = some (Json.num ⟨15, 1⟩) := rfl
example : jsonParse "\"a\\nb\"" = some (Json.str "a\nb") := rfl
example : jsonParse "hello" = none := rfl
example : jsonParse "\x7b\"a\":1,\"a\":2\x7d" = some (Json.obj [("a", Json.int 2)]) := rfl

/-! ## JavaScript string helpers

`jsTrim` models `String.prototype.trim`, `findSubIdx` models `String.indexOf`
of a pattern, and the `strip…` functions hand-compile the specific regex
rewrites used by the repository's parsers.  Rewriting functions take explicit
fuel (one unit is spent per step, and every step consumes at least one input
character, so `length + 1` fuel never runs out); wrappers supply it. -/

def jsTrim (s : String) : String :=
  String.mk (((s.data.dropWhile fun c => jsWs c).reverse.dropWhile fun c => jsWs c).reverse)

def strStarts : List Char → List Char → Bool
  | [], _ => true
  | _ :: _, [] => false
  | p :: ps, c :: cs => p == c && strStarts ps cs

def findSubIdxAux (pat : List Char) : List Char → Nat → Option Nat
  | [], i => if pat.isEmpty then some i else none
  | c :: cs, i => if strStarts pat (c :: cs) then some i else findSubIdxAux pat cs (i + 1)

/-- Index of the first occurrence of `pat` (as `String.indexOf`). -/
def findSubIdx (pat cs : List Char) : Option Nat := findSubIdxAux pat cs 0

def idxOfCh (c : Char) (cs : List Char) : Option Nat := cs.findIdx? (fun x => x == c)

def lastIdxOfCh (c : Char) (cs : List Char) : Option Nat :=
  match (cs.reverse.findIdx? fun x => x == c) with
  | some j => some (cs.length - 1 - j)
  | none => none

def tick3 : List Char := ['`', '`', '`']

/-- The global rewrite "replace every ``` `pat` ``` (plus an optional directly
following newline) by the empty string", as `.replace(/pat\n?/g, "")`. -/
def stripSeqNlAux (pat : List Char) : Nat → List Char → List Char
  | 0, cs => cs
  | fuel + 1, cs =>
    match cs with
    | [] => []
    | c :: rest =>
      if strStarts pat (c :: rest) then
        match (c :: rest).drop pat.length with
        | '\n' :: r => stripSeqNlAux pat fuel r
        | r => stripSeqNlAux pat fuel r
      else c :: stripSeqNlAux pat fuel rest

def stripSeqNl (pat cs : List Char) : List Char := stripSeqNlAux pat (cs.length + 1) cs

/-- `.replace(/\/\/.*$/gm, "")`: from each `//` on, drop the rest of the line. -/
def stripLineCommentsAux : Nat → List Char → List Char
  | 0, cs => cs
  | fuel + 1, cs =>
    match cs with
    | [] => []
    | '/' :: '/' :: rest => stripLineCommentsAux fuel (rest.dropWhile fun c => c != '\n')
    | c :: rest => c :: stripLineCommentsAux fuel rest

def stripLineComments (cs : List Char) : List Char := stripLineCommentsAux (cs.length + 1) cs

/-- `.replace(/\/\*[\s\S]*?\*\//g, "")`: drop each lazily matched block
comment; an unterminated `/*` has no match and stays. -/
def stripBlockCommentsAux : Nat → List Char → List Char
  | 0, cs => cs
  | fuel + 1, cs =>
    match cs with
    | [] => []
    | '/' :: '*' :: rest =>
      (match findSubIdx ['*', '/'] rest with
       | some k => stripBlockCommentsAux fuel (rest.drop (k + 2))
       | none => '/' :: stripBlockCommentsAux fuel ('*' :: rest))
    | c :: rest => c :: stripBlockCommentsAux fuel rest

def stripBlockComments (cs : List Char) : List Char := stripBlockCommentsAux (cs.length + 1) cs

/-- `.replace(/,(\s*[}\]])/g, "$1")`: drop a comma standing (up to whitespace)
before a closing brace or bracket; scanning resumes after the bracket. -/
def stripTrailingCommasAux : Nat → List Char → List Char
  | 0, cs => cs
  | fuel + 1, cs =>
    match cs with
    | [] => []
    | c :: rest =>
      if c == ',' then
        let ws := rest.takeWhile fun x => jsWs x
        match rest.dropWhile (fun x => jsWs x) with
        | b :: r2 =>
          if b == rcurly || b == rsquare then ws ++ b :: stripTrailingCommasAux fuel r2
          else c :: stripTrailingCommasAux fuel rest
        | [] => c :: stripTrailingCommasAux fuel rest
      else c :: stripTrailingCommasAux fuel rest

def stripTrailingCommasJs (cs : List Char) : List Char :=
  stripTrailingCommasAux (cs.length + 1) cs

/-- `.replace(/[\x00-\x1F\x7F]/g, "")`. -/
def stripControlChars (cs : List Char) : List Char :=
  cs.filter fun c => !(c.toNat < 32 || c.toNat == 127)

/-- `response.match(/```(?:json)?\s*([\s\S]*?)```/)`, returning the captured
group: after the first ``` (and an optional `json` tag and greedy whitespace),
everything up to the next ```. -/
def codeBlockMatch (s : String) : Option String :=
  let cs := s.data
  match findSubIdx tick3 cs with
  | none => none
  | some i =>
    let afterOpen := cs.drop (i + 3)
    let afterTag := if strStarts ['j', 's', 'o', 'n'] afterOpen then afterOpen.drop 4 else afterOpen
    let body := afterTag.dropWhile fun c => jsWs c
    match findSubIdx tick3 body with
    | none => none
    | some k => some (String.mk (body.take k))

/-- The greedy shape pattern of strategy 3 (`/\{[\s\S]*\}/` resp.
`/\[[\s\S]*\]/`): from the first opener to the last closer. -/
def greedyShapeMatch (opener closer : Char) (cs : List Char) : Option (List Char) :=
  match idxOfCh opener cs, lastIdxOfCh closer cs with
  | some i, some k => if i < k then some ((cs.drop i).take (k - i + 1)) else none
  | _, _ => none

/-- The character-by-character brace balancing loop of mcp-server strategy 4:
returns the start and end indices of the first region whose `{`/`}` count
returns to zero (exactly as the JavaScript loop tracks them). -/
def mcpBracketScanAux : List Char → Nat → Int → Option Nat → Option (Nat × Nat)
  | [], _, _, _ => none
  | c :: rest, i, count, start =>
    if c == lcurly then
      mcpBracketScanAux rest (i + 1) (count + 1) (if count == 0 then some i else start)
    else if c == rcurly then
      let count2 := count - 1
      match start with
      | some s => if count2 == 0 then some (s, i) else mcpBracketScanAux rest (i + 1) count2 start
      | none => mcpBracketScanAux rest (i + 1) count2 none
    else mcpBracketScanAux rest (i + 1) count start

def mcpBracketScan (cs : List Char) : Option (Nat × Nat) := mcpBracketScanAux cs 0 0 none

/-- JavaScript `split('\n')` (keeps empty pieces; `[""]` on empty input). -/
def splitLines : List Char → List (List Char)
  | [] => [[]]
  | '\n' :: r => [] :: splitLines r
  | c :: r =>
    match splitLines r with
    | l :: ls => (c :: l) :: ls
    | [] => [[c]]

/-! ## Error model

One constructor per custom error class of src/lib/errors.js, plus `generic`
for plain `Error`/`TypeError`-style platform exceptions.  `ParsingError`'s
`originalResponse` payload and `NetworkError`'s extra fields are carried where
cheap; they never influence control flow. -/

inductive JsError where
  | validation (message field : String)
  | network (message endpoint : String) (status : Int)
  | parsing (message : String)
  | configuration (message : String)
  | api (message : String) (cause : JsError) (apiName : String)
  | generic (message : String)

def JsError.message : JsError → String
  | .validation m _ => m
  | .network m _ _ => m
  | .parsing m => m
  | .configuration m => m
  | .api m _ _ => m
  | .generic m => m

/-! ## The three parseJSONFromResponse variants -/

/-- Expected run-time shape (second argument of the part_002/sds variants). -/
inductive JsonType where
  | object
  | array

/-- Strategies 3 and 4 of `parseJSONFromResponse` in src/mcp-server.js
(lines 236-273): greedy first-`{`-to-last-`}` substring, then the
brace-balancing scan; both only ever look for object braces. -/
def mcpStage34 (response : String) : Except JsError Json :=
  let cs := response.data
  let s3 : Option Json :=
    match idxOfCh lcurly cs, lastIdxOfCh rcurly cs with
    | some i, some k =>
      if k > i then jsonParse (String.mk ((cs.drop i).take (k - i + 1))) else none
    | _, _ => none
  match s3 with
  | some v => .ok v
  | none =>
    match mcpBracketScan cs with
    | some (i, k) =>
      (match jsonParse (String.mk ((cs.drop i).take (k - i + 1))) with
       | some v => .ok v
       | none => .error (.parsing "Failed to parse JSON from response after trying all strategies"))
    | none => .error (.parsing "Failed to parse JSON from response after trying all strategies")

/-- `parseJSONFromResponse` of src/mcp-server.js (lines 213-276): direct
parse, then fenced code block, then `mcpStage34`.  No shape argument, no
comment/trailing-comma/control-character stripping. -/
def mcpParseJSONFromResponse (response : String) : Except JsError Json :=
  match jsonParse response with
  | some v => .ok v
  | none =>
    match codeBlockMatch response with
    | some inner =>
      (match jsonParse (jsTrim inner) with
       | some v => .ok v
       | none => mcpStage34 response)
    | none => mcpStage34 response

def Json.isArr : Json → Bool
  | .arr _ => true
  | _ => false

def Json.isObj : Json → Bool
  | .obj _ => true
  | _ => false

/-- JavaScript truthiness of a JSON value. -/
def jsTruthy : Json → Bool
  | .null => false
  | .bool b => b
  | .num n => !(n.mantissa == 0)
  | .str s => !(s == "")
  | .arr _ => true
  | .obj _ => true

/-- `typeof v === 'object'`: true for objects, arrays and `null`. -/
def typeofIsObject : Json → Bool
  | .null => true
  | .arr _ => true
  | .obj _ => true
  | _ => false

/-- The acceptance test of part_002's strategy loop (line 667):
`result && (type === 'array' ? Array.isArray(result) : typeof result === 'object')`. -/
def p2Accept (t : JsonType) (v : Json) : Bool :=
  jsTruthy v && (match t with
                 | .array => v.isArr
                 | .object => typeofIsObject v)

/-- Code-block cleaning shared by part_002 strategies 2/3 and src/sds.js:
`.replace(/```json\n?/g, "").replace(/```\n?/g, "")`. -/
def cleanCodeBlocks (cs : List Char) : List Char :=
  stripSeqNl tick3 (stripSeqNl ['`', '`', '`', 'j', 's', 'o', 'n'] cs)

/-- Comment cleaning shared by part_002 strategy 3 and src/sds.js. -/
def cleanComments (cs : List Char) : List Char :=
  stripBlockComments (stripLineComments cs)

def shapeOpener : JsonType → Char
  | .object => lcurly
  | .array => lsquare

def shapeCloser : JsonType → Char
  | .object => rcurly
  | .array => rsquare

/-- Strategy 3 of part_002 (and the single strategy of src/sds.js): clean code
blocks and comments, take the greedy shape match, strip trailing commas and
control characters, parse.  The `Except` message distinguishes the two failure
exceptions (a missing pattern versus a JSON syntax error; the platform's
SyntaxError text is modelled by the constant "SyntaxError"). -/
def regexExtractStrategy (response : String) (t : JsonType) : Except String Json :=
  let cleaned := cleanComments (cleanCodeBlocks response.data)
  match greedyShapeMatch (shapeOpener t) (shapeCloser t) cleaned with
  | none => .error "No JSON pattern found"
  | some sub =>
    match jsonParse (String.mk (stripControlChars (stripTrailingCommasJs sub))) with
    | some v => .ok v
    | none => .error "SyntaxError"

/-- Strategy 4 of part_002 (lines 634-660): line-by-line accumulation from the
first line opening a bracket until the running bracket count returns to zero. -/
def p2LineStrategy (response : String) : Except String Json :=
  let rec go : List (List Char) → Bool → Int → List (List Char) → List (List Char)
    | [], _, _, acc => acc
    | line :: rest, inJson, count, acc =>
      let trimmed := (String.mk line) |> jsTrim
      let starts :=
        match trimmed.data with
        | c :: _ => c == lcurly || c == lsquare
        | [] => false
      let inJson2 := inJson || starts
      if inJson2 then
        let acc2 := acc ++ [line]
        let count2 := count + (line.countP fun c => c == lcurly || c == lsquare)
                            - (line.countP fun c => c == rcurly || c == rsquare)
        if count2 == 0 then acc2 else go rest inJson2 count2 acc2
      else go rest inJson2 count acc
  let jsonLines := go (splitLines response.data) false 0 []
  match jsonLines with
  | [] => .error "No JSON content found"
  | _ =>
    match jsonParse (String.mk (List.intercalate ['\n'] jsonLines)) with
    | some v => .ok v
    | none => .error "SyntaxError"

/-- Strategies 1-4 of part_002's `parseJSONFromResponse` (lines 607-661), in
order, as `Except`-valued attempts. -/
def p2Strategies (response : String) (t : JsonType) : List (Except String Json) :=
  [ (match jsonParse (jsTrim response) with
     | some v => .ok v
     | none => .error "SyntaxError"),
    (match jsonParse (jsTrim (String.mk (cleanCodeBlocks response.data))) with
     | some v => .ok v
     | none => .error "SyntaxError"),
    regexExtractStrategy response t,
    p2LineStrategy response ]

/-- The strategy loop of part_002 (lines 663-677): first result passing
`p2Accept` wins; a strategy that parses but fails the shape test does not
update `lastError`; exhaustion raises a `ParsingError` whose message embeds
the last exception (or the string "undefined" if none was recorded). -/
def p2Run (t : JsonType) : List (Except String Json) → Option String → Except JsError Json
  | [], lastErr =>
    .error (.parsing ("JSON parsing failed after 4 attempts: " ++ lastErr.getD "undefined"))
  | r :: rs, lastErr =>
    match r with
    | .ok v => if p2Accept t v then .ok v else p2Run t rs lastErr
    | .error m => p2Run t rs (some m)

/-- `parseJSONFromResponse` of src/unnamed/part_002 (lines 606-678). -/
def p2ParseJSONFromResponse (response : String) (t : JsonType) : Except JsError Json :=
  p2Run t (p2Strategies response t) none

/-- `parseJSONFromResponse` of src/sds.js (lines 414-448): the single
clean-extract-parse pass, rethrowing any failure as a plain `Error` whose
message is prefixed "JSON parsing error: ". -/
def sdsParseJSONFromResponse (response : String) (t : JsonType) : Except JsError Json :=
  match regexExtractStrategy response t with
  | .ok v => .ok v
  | .error m => .error (.generic ("JSON parsing error: " ++ m))

example : mcpParseJSONFromResponse "\x7b\"a\": 1\x7d" = .ok (Json.obj [("a", Json.int 1)]) := rfl
example :
    p2ParseJSONFromResponse "[1,2]" JsonType.object = .ok (Json.arr [Json.int 1, Json.int 2]) :=
  rfl

/-! ## Resilient invoker (src/lib/api-client.js)

`callAI` (lines 184-200) selects a provider once (`getAvailableAPI`, before
the loop; its possible `ConfigurationError` is independent of the retry loop)
and then runs up to `retries + 1` attempts of `callAPI`.  Attempt outcomes are
the oracle `attemptOutcome n`; the one-second backoff only delays.  The catch
clause does not inspect the error: any failure with attempts remaining is
retried, and the final failure is wrapped in an `APIError`. -/

def callAIAux (attemptOutcome : Nat → Except JsError String) (display apiName : String)
    (attempt : Nat) : Nat → Except JsError String
  | 0 =>
    (match attemptOutcome attempt with
     | .ok v => .ok v
     | .error e => .error (.api (display ++ " API failed: " ++ e.message) e apiName))
  | remaining + 1 =>
    (match attemptOutcome attempt with
     | .ok v => .ok v
     | .error _ => callAIAux attemptOutcome display apiName (attempt + 1) remaining)

def callAI (attemptOutcome : Nat → Except JsError String) (display apiName : String)
    (retries : Nat) : Except JsError String :=
  callAIAux attemptOutcome display apiName 0 retries

/-! ## Module-count resolution -/

def jsToLower (s : String) : String := String.mk (s.data.map Char.toLower)

/-- `String.prototype.includes` (substring containment). -/
def jsIncludes (s sub : String) : Bool := (findSubIdx sub.data s.data).isSome

/-- JavaScript `split(/\s+/)`: pieces between maximal whitespace runs, keeping
an empty piece at an end that starts or ends with whitespace (`""` gives
`[""]`). -/
def splitWsAux : Nat → List Char → List Char → List (List Char)
  | 0, acc, _ => [acc.reverse]
  | _, acc, [] => [acc.reverse]
  | fuel + 1, acc, c :: rest =>
    if jsWs c then acc.reverse :: splitWsAux fuel [] (rest.dropWhile fun x => jsWs x)
    else splitWsAux fuel (c :: acc) rest

def splitWs (s : String) : List (List Char) := splitWsAux (s.data.length + 1) [] s.data

def highComplexityKeywords : List String :=
  ["authentication", "security", "payment", "analytics", "real-time", "notification",
   "api integration", "machine learning", "ai", "blockchain"]

def mediumComplexityKeywords : List String :=
  ["user management", "database", "search", "admin panel", "dashboard", "reporting",
   "file upload", "email"]

def lowComplexityKeywords : List String := ["crud", "basic", "simple", "minimal"]

/-- `inferModuleCountFromDescription` of src/mcp-server.js (lines 137-174).
The score stays an integer throughout, so the final `Math.round` is the
identity and is omitted. -/
def inferModuleCountFromDescription (description : String) : Int :=
  let text := jsToLower description
  let score : Int := 5
  let score := highComplexityKeywords.foldl
    (fun sc k => if jsIncludes text k then sc + 2 else sc) score
  let score := mediumComplexityKeywords.foldl
    (fun sc k => if jsIncludes text k then sc + 1 else sc) score
  let score := lowComplexityKeywords.foldl
    (fun sc k => if jsIncludes text k then sc - 1 else sc) score
  let wordCount := (splitWs description).length
  let score : Int :=
    if wordCount > 100 then score + 2
    else if wordCount > 50 then score + 1
    else if wordCount < 20 then score - 1
    else score
  let score :=
    if jsIncludes text "mobile" || jsIncludes text "ios" || jsIncludes text "android" then
      score + 1
    else score
  let score := if jsIncludes text "web" && jsIncludes text "backend" then score + 2 else score
  let score :=
    if jsIncludes text "microservices" || jsIncludes text "distributed" then score + 3 else score
  max 4 (min 15 score)

/-- `getModuleCount` of src/mcp-server.js (lines 123-134): the table lookup
`{simple: 4, medium: 8, complex: 12}[level] || 8` written out. -/
def mcpGetModuleCount (complexity_level : String) (description : String) : Int :=
  if complexity_level == "auto" then inferModuleCountFromDescription description
  else if complexity_level == "simple" then 4
  else if complexity_level == "medium" then 8
  else if complexity_level == "complex" then 12
  else 8

/-- `getModuleCount` of src/sds.js (lines 759-766): no description argument,
and `simple` maps to 5 there. -/
def sdsGetModuleCount (complexity_level : String) : Int :=
  if complexity_level == "simple" then 5
  else if complexity_level == "medium" then 8
  else if complexity_level == "complex" then 12
  else 8

/-! ## Batched module detailing (src/sds.js generateSpecification)

As committed, src/sds.js cannot load at all: the batch worker opens a `try {`
at line 525 whose closing brace at line 563 is followed directly by `)`, so
the `try` has no `catch`/`finally` — a JavaScript SyntaxError (see C4).  The
embedding below removes that stray outer `try` (the evident slip; the inner
`try`/`catch` of lines 544-562 carries the whole degrade-to-stub behaviour and
is kept exactly).  `Promise.all` joins a batch by index, so a batch's results
are its submission-order map; the inter-batch delay only waits. -/

def sdsModulePrompt (moduleName : String) : String :=
  "Please design the \"" ++ moduleName ++ "\" module in detail.\n\n" ++
  "Respond in JSON format:\n\x7b\n  \"name\": \"Module name\",\n" ++
  "  \"description\": \"Detailed module description\",\n  \"functions\": [\n    \x7b\n" ++
  "      \"name\": \"Function name\",\n      \"description\": \"Function description\", \n" ++
  "      \"parameters\": \"Parameter list\",\n      \"returns\": \"Return value description\"\n" ++
  "    \x7d\n  ]\n\x7d\n\nInclude 3-5 functions per module."

/-- The degraded stand-in returned when one module's detailing fails
(src/sds.js lines 557-561). -/
def stubModule (moduleName : String) : Json :=
  Json.obj
    [("name", Json.str moduleName),
     ("description", Json.str (moduleName ++ " module functionality")),
     ("functions", Json.arr [])]

/-- One batch worker (src/sds.js lines 522-562, with the stray `try` removed):
invoke, parse, validate; any failure degrades to `stubModule`. -/
def detailOneModule (ai : String → Except JsError String) (moduleName : String) : Json :=
  match ai (sdsModulePrompt moduleName) with
  | .error _ => stubModule moduleName
  | .ok resp =>
    match sdsParseJSONFromResponse resp JsonType.object with
    | .error _ => stubModule moduleName
    | .ok moduleData =>
      if !(jsTruthy moduleData) || !(typeofIsObject moduleData) then stubModule moduleName
      else moduleData

def chunkListAux (bs : Nat) : Nat → List String → List (List String)
  | 0, l => if l.isEmpty then [] else [l]
  | _, [] => []
  | fuel + 1, l => l.take bs :: chunkListAux bs fuel (l.drop bs)

/-- The `for (let i = 0; i < n; i += batchSize)` slicing of the module list
(a zero batch size would loop forever in the source; `CONFIG.batchSize` is
positive, default 3). -/
def chunkList (bs : Nat) (l : List String) : List (List String) :=
  if bs == 0 then [] else chunkListAux bs (l.length + 1) l

/-- `generateSpecification` of src/sds.js (lines 506-584): the specification
skeleton in source field order, with `modules` the concatenation of the
batch results (every worker returns a truthy value — a validated object or the
stub — so the `if (result)` push filter keeps all of them). -/
def sdsGenerateSpecification (ai : String → Except JsError String) (description : String)
    (selectedTechStack : Json) (selectedModules : List String) (batchSize : Nat) : Json :=
  let batches := chunkList batchSize selectedModules
  let modules := (batches.map fun b => b.map (detailOneModule ai)).flatten
  Json.obj
    [("title", Json.str "Project Specification"),
     ("description", Json.str description),
     ("techStack", selectedTechStack),
     ("modules", Json.arr modules)]

/-! ## MCP server model (src/mcp-server.js)

The session map, the tech-stack catalog, and the tool handlers exercised by
the claims (`refine_specification`, `select_modules`, `select_tech_stack`) are
embedded in full; `analyze_project_request` and `export_specification` enter
the dispatch as opaque handler parameters (their bodies are prompt plumbing
and rendering; the one step of analyze that C10 needs — tech-stack selection —
is embedded separately as `analyzeSelectedTechStack`).  Emitted
`process.stdout.write` lines are modelled as `Emit` envelopes; the
human-readable text payload of a result is display-only and abstracted. -/

/-- The fields of a catalog entry consulted by handler control flow (the
preference filter reads `stack.name` and `stack.stack.language`); the other
stack fields only feed rendered text. -/
structure TechStack where
  id : Int
  name : String
  language : String

def mobileStacks : List TechStack :=
  [⟨1, "React Native", "JavaScript/TypeScript"⟩,
   ⟨2, "Flutter", "Dart"⟩,
   ⟨3, "Native iOS (Swift)", "Swift"⟩,
   ⟨4, "Native Android (Kotlin)", "Kotlin"⟩]

def webStacks : List TechStack :=
  [⟨1, "React/Next.js", "JavaScript/TypeScript"⟩,
   ⟨2, "Vue/Nuxt", "JavaScript/TypeScript"⟩]

def backendStacks : List TechStack :=
  [⟨1, "Node.js/Express", "JavaScript/TypeScript"⟩,
   ⟨2, "Python/FastAPI", "Python"⟩]

/-- `techStackOptions` (src/mcp-server.js lines 17-120): only the keys
`mobile`, `web`, `backend` exist; every other platform string misses. -/
def techStackOptions (platform : String) : Option (List TechStack) :=
  if platform == "mobile" then some mobileStacks
  else if platform == "web" then some webStacks
  else if platform == "backend" then some backendStacks
  else none

/-- Fallback entry for the unreachable empty-catalog case of `headD`. -/
def fallbackStack : TechStack := ⟨0, "", ""⟩

/-- The tech-stack choice inside `handleAnalyzeProjectRequest` (lines
608-610): `availableStacks ? availableStacks[0] : techStackOptions.web[0]` —
an unsupported platform silently falls back to the first web stack instead of
failing. -/
def analyzeSelectedTechStack (detectedPlatform : String) : TechStack :=
  match techStackOptions detectedPlatform with
  | some l => l.headD fallbackStack
  | none => webStacks.headD fallbackStack

structure SessionData where
  specification : Json
  platform : String
  complexity : String
  advanced_features : Bool
  created_at : String
  last_modified : Option String

abbrev Sessions := List (String × SessionData)

def mapLookup (m : Sessions) (k : String) : Option SessionData :=
  match m.find? (fun p => p.1 == k) with
  | some p => some p.2
  | none => none

/-- `Map.prototype.set`: an existing key keeps its position (keys are unique,
so replacing the first occurrence is replacing the occurrence), otherwise
append. -/
def mapSet : Sessions → String → SessionData → Sessions
  | [], k, v => [(k, v)]
  | (k2, v2) :: rest, k, v =>
    if k2 == k then (k, v) :: rest else (k2, v2) :: mapSet rest k v

/-- A line written to stdout by the server: a result envelope or an error
envelope with its numeric code (the text payload is abstracted). -/
inductive Emit where
  | result (id : Option Json)
  | rpcError (id : Option Json) (code : Int) (message : String)

/-- String coercion of a template-literal substitution `${x}` (exact for
strings, the only case the sources substitute into control-flow-relevant
strings; other cases carry a display approximation). -/
def jsTemplate : Option Json → String
  | none => "undefined"
  | some Json.null => "null"
  | some (Json.bool true) => "true"
  | some (Json.bool false) => "false"
  | some (Json.str s) => s
  | some (Json.num n) =>
    if n.exponent10 == 0 then toString n.mantissa
    else toString n.mantissa ++ "e" ++ toString n.exponent10
  | some (Json.arr _) => ""
  | some (Json.obj _) => "[object Object]"

/-- JavaScript property access `v.f`: a TypeError on `undefined`/`null`, the
member on objects, `undefined` elsewhere. -/
def jsGet : Option Json → String → Except JsError (Option Json)
  | none, f =>
    .error (.generic ("TypeError: Cannot read properties of undefined (reading " ++ f ++ ")"))
  | some Json.null, f =>
    .error (.generic ("TypeError: Cannot read properties of null (reading " ++ f ++ ")"))
  | some (Json.obj ms), f => .ok (objFind ms f)
  | some _, _ => .ok none

/-- `!session_id || !sessions.has(session_id)` folded with `sessions.get`:
yields the key and its session only for a truthy string id present in the map
(a truthy non-string id is never a key of this string-keyed map). -/
def sessionLookupJs (x : Option Json) (sessions : Sessions) : Option (String × SessionData) :=
  match x with
  | some (Json.str s) =>
    if s == "" then none
    else
      match mapLookup sessions s with
      | some sd => some (s, sd)
      | none => none
  | _ => none

/-- Short-circuiting `Array.prototype.some` with a fallible predicate. -/
def jsSomeM (f : α → Except JsError Bool) : List α → Except JsError Bool
  | [] => .ok false
  | a :: rest => do
    let b ← f a
    if b then .ok true else jsSomeM f rest

/-- `Array.prototype.filter` with a fallible predicate. -/
def jsFilterM (f : α → Except JsError Bool) : List α → Except JsError (List α)
  | [] => .ok []
  | a :: rest => do
    let b ← f a
    let tail ← jsFilterM f rest
    .ok (if b then a :: tail else tail)

/-! ### handleSelectTechStack (src/mcp-server.js lines 800-841) -/

/-- One preference test of the filter (line 812-815): a non-string preference
would hit `pref.toLowerCase()` and throw. -/
def prefMatches (st : TechStack) (pref : Json) : Except JsError Bool :=
  match pref with
  | Json.str p =>
    .ok (jsIncludes (jsToLower st.name) (jsToLower p) ||
         jsIncludes (jsToLower st.language) (jsToLower p))
  | _ => .error (.generic "TypeError: pref.toLowerCase is not a function")

/-- `preferences.length > 0` and the subsequent filter: `preferences` defaults
to `[]`; a non-empty string would reach `.some` and throw; other non-arrays
have an `undefined` length, so the filter branch is skipped. -/
def prefList : Option Json → Except JsError (List Json)
  | none => .ok []
  | some (Json.arr l) => .ok l
  | some (Json.str s) =>
    if s == "" then .ok []
    else .error (.generic "TypeError: preferences.some is not a function")
  | some _ => .ok []

def handleSelectTechStack (id : Option Json) (argsOpt : Option Json) (sessions : Sessions) :
    Except JsError (List Emit × Sessions) := do
  let platform ← jsGet argsOpt "platform"
  let preferences ← jsGet argsOpt "preferences"
  match techStackOptions (jsTemplate platform) with
  | none =>
    throw (JsError.validation ("Unsupported platform: " ++ jsTemplate platform) "platform")
  | some availableStacks => do
    let prefs ← prefList preferences
    let filteredStacks ←
      if prefs.isEmpty then pure availableStacks
      else jsFilterM (fun st => jsSomeM (prefMatches st) prefs) availableStacks
    let _stacks := if filteredStacks.length > 0 then filteredStacks else availableStacks
    -- the chosen list only feeds the rendered text block
    pure ([Emit.result id], sessions)

/-! ### handleRefineSpecification (src/mcp-server.js lines 656-737) -/

/-- Element coercion of `Array.prototype.join` (`undefined`/`null` print as
the empty string). -/
def jsJoinVal : Option Json → String
  | none => ""
  | some Json.null => ""
  | some v => jsTemplate (some v)

/-- `currentSpec.modules.map(m => m.name).join(', ')` (line 671), with the
TypeErrors that non-arrays or null elements would raise. -/
def moduleNamesOf (spec : Json) : Except JsError String := do
  let mods ← jsGet (some spec) "modules"
  match mods with
  | some (Json.arr ms) => do
    let names ← ms.mapM fun m => jsGet (some m) "name"
    pure (String.intercalate ", " (names.map jsJoinVal))
  | _ => .error (.generic "TypeError: currentSpec.modules.map is not a function")

/-- The refinement prompt template (lines 667-675). -/
def refinePrompt (modificationRequest names : String) : String :=
  "Please modify the current specification according to this request:\n\n" ++
  "Request: " ++ modificationRequest ++ "\n\n" ++
  "Current specification modules: " ++ names ++ "\n\n" ++
  "IMPORTANT: Respond with ONLY valid JSON format. No explanations or additional text.\n\n" ++
  "Modified specification JSON:"

/-- The validation test of line 682:
`!updatedSpec || !updatedSpec.modules || !Array.isArray(updatedSpec.modules)`. -/
def refineSpecInvalid (v : Json) : Bool :=
  !(jsTruthy v) ||
  (match v with
   | Json.obj ms =>
     (match objFind ms "modules" with
      | some m => !(jsTruthy m) || !(m.isArr)
      | none => true)
   | _ => true)

def handleRefineSpecification (ai : String → Except JsError String) (now : String)
    (id : Option Json) (argsOpt : Option Json) (sessions : Sessions) :
    Except JsError (List Emit × Sessions) := do
  let session_id ← jsGet argsOpt "session_id"
  let modification_request ← jsGet argsOpt "modification_request"
  match sessionLookupJs session_id sessions with
  | none =>
    throw (JsError.validation
      "Specification session not found. Please provide a valid session_id." "session_id")
  | some (sid, sessionData) => do
    let names ← moduleNamesOf sessionData.specification
    let prompt := refinePrompt (jsTemplate modification_request) names
    -- the try block of lines 677-730, with the catch of lines 731-736
    let attempt : Except JsError (List Emit × Sessions) := do
      let modificationResponse ← ai prompt
      let updatedSpec ← mcpParseJSONFromResponse modificationResponse
      if refineSpecInvalid updatedSpec then
        throw (JsError.validation
          "Invalid specification format received from AI modification" "specification")
      else
        let sd2 :=
          { sessionData with specification := updatedSpec, last_modified := some now }
        pure ([Emit.result id], mapSet sessions sid sd2)
    match attempt with
    | .ok r => pure r
    | .error e =>
      match e with
      | .api m c n => throw (JsError.api m c n)
      | .validation m f => throw (JsError.validation m f)
      | .parsing m => throw (JsError.parsing m)
      | other => throw (JsError.api ("Specification refinement failed: " ++ other.message) other "AI")

/-! ### handleSelectModules (src/mcp-server.js lines 843-890) -/

/-- `!Array.isArray(selected_modules) || selected_modules.length === 0`. -/
def selectedInvalid : Option Json → Bool
  | some (Json.arr l) => l.isEmpty
  | _ => true

/-- Exact number value equality (`includes` compares numbers by value). -/
def jnumEq (a b : JNum) : Bool :=
  if a.exponent10 ≥ b.exponent10 then
    a.mantissa * (10 : Int) ^ (a.exponent10 - b.exponent10).toNat == b.mantissa
  else a.mantissa == b.mantissa * (10 : Int) ^ (b.exponent10 - a.exponent10).toNat

/-- The SameValueZero comparison of `Array.prototype.includes`, on parsed JSON
values: primitives compare by value; two separately parsed objects or arrays
are distinct references and never equal. -/
def jsSameValueZero (a b : Json) : Bool :=
  match a, b with
  | Json.str s, Json.str t => s == t
  | Json.num n, Json.num m => jnumEq n m
  | Json.bool x, Json.bool y => x == y
  | Json.null, Json.null => true
  | _, _ => false

/-- `selected_modules.includes(x)`: a parsed JSON array never contains
`undefined`, so a missing name matches nothing. -/
def selIncludes (sel : List Json) : Option Json → Bool
  | none => false
  | some v => sel.any fun w => jsSameValueZero w v

/-- The filter callback `module => selected_modules.includes(module.name)`
(lines 859-861); a null module element would make `.name` throw. -/
def keepModule (sel : List Json) (m : Json) : Except JsError Bool := do
  let n ← jsGet (some m) "name"
  pure (selIncludes sel n)

/-- The object literal `{ ...base, f: v }`: spread keeps field order and the
override replaces in place or appends.  Call sites only ever spread objects;
the exotic spread of a primitive or array base is collapsed to the override
field alone. -/
def setFieldList : List (String × Json) → String → Json → List (String × Json)
  | [], f, v => [(f, v)]
  | (k, w) :: rest, f, v =>
    if k == f then (k, v) :: rest else (k, w) :: setFieldList rest f v

def jsSpreadSet (base : Json) (f : String) (v : Json) : Json :=
  match base with
  | Json.obj ms => Json.obj (setFieldList ms f v)
  | _ => Json.obj [(f, v)]

def handleSelectModules (now : String) (id : Option Json) (argsOpt : Option Json)
    (sessions : Sessions) : Except JsError (List Emit × Sessions) := do
  let session_id ← jsGet argsOpt "session_id"
  let selected_modules ← jsGet argsOpt "selected_modules"
  match sessionLookupJs session_id sessions with
  | none =>
    throw (JsError.validation
      "Specification session not found. Please provide a valid session_id." "session_id")
  | some (sid, sessionData) =>
    if selectedInvalid selected_modules then
      throw (JsError.validation
        "Please provide a valid array of selected module names." "selected_modules")
    else do
      let sel := match selected_modules with | some (Json.arr l) => l | _ => []
      let mods ← jsGet (some sessionData.specification) "modules"
      match mods with
      | some (Json.arr ms) => do
        let kept ← jsFilterM (keepModule sel) ms
        let filteredSpec := jsSpreadSet sessionData.specification "modules" (Json.arr kept)
        let sd2 :=
          { sessionData with specification := filteredSpec, last_modified := some now }
        pure ([Emit.result id], mapSet sessions sid sd2)
      | _ => .error (.generic "TypeError: specification.modules.filter is not a function")

/-! ### handleError (src/lib/errors.js lines 54-104) and the read loop -/

/-- The per-kind numeric code of `handleError` (configuration/validation-like
kinds map to -32602, the rest to -32603). -/
def handleErrorCode : JsError → Int
  | .api _ _ _ => -32602
  | .parsing _ => -32603
  | .configuration _ => -32602
  | .validation _ _ => -32602
  | .network _ _ _ => -32603
  | .generic _ => -32603

def handleErrorMessage : JsError → String
  | .api _ _ apiName =>
    "Failed to connect to " ++ apiName ++ " API. Please check your API keys in the .env file."
  | .parsing _ =>
    "The AI response could not be parsed. This may be a temporary issue - please try again."
  | .configuration m => "Configuration error: " ++ m
  | .validation m f => "Validation error in " ++ f ++ ": " ++ m
  | .network m endpoint _ => "Network error accessing " ++ endpoint ++ ": " ++ m
  | .generic _ => "An unexpected error occurred."

/-- The MCP branch of `handleError`: the error envelope it would write.  The
server's read loop can never actually reach it (see `stdinOnData` and C1). -/
def handleErrorMCP (e : JsError) (requestId : Option Json) : Emit :=
  Emit.rpcError requestId (handleErrorCode e) (handleErrorMessage e)

/-- An opaque tool handler (used for `analyze_project_request` and
`export_specification`, whose bodies the claims do not exercise): request id,
`params.arguments`, a timestamp, and the session map, to emitted envelopes and
an updated map, or a thrown error. -/
abbrev HandlerFn :=
  Option Json → Option Json → String → Sessions → Except JsError (List Emit × Sessions)

/-- Property read on a value known not to be `null` (the dispatch handles the
null request/params separately). -/
def jsGetOpt (v : Json) (f : String) : Option Json :=
  match v with
  | Json.obj ms => objFind ms f
  | _ => none

def jsEqStrOpt (x : Option Json) (s : String) : Bool :=
  match x with
  | some (Json.str t) => t == s
  | _ => false

/-- Outcome of one `data` event of the read loop. -/
structure StepResult where
  emits : List Emit
  sessions : Sessions
  crashed : Bool

/-- The `process.stdin.on('data', ...)` callback of `startMCPServer`
(src/mcp-server.js lines 547-585).  Crucial detail: the callback's `catch`
block reads `request?.id`, but `request` is a `const` declared inside the
`try` block and is not in scope in the `catch` — so ANY error reaching the
catch (a non-JSON line, a null/primitive request, or a handler throw) raises a
ReferenceError inside the catch itself; `handleError` never runs, no envelope
is written, and the async callback's rejection escapes unhandled (`crashed`).
An unknown method, a non-object request, or an unknown tool name simply fall
through every `if` and produce no response at all. -/
def stdinOnData (analyzeH exportH : HandlerFn) (ai : String → Except JsError String)
    (now : String) (sessions : Sessions) (line : String) : StepResult :=
  match jsonParse line with
  | none => ⟨[], sessions, true⟩
  | some Json.null => ⟨[], sessions, true⟩
  | some request =>
    let m := jsGetOpt request "method"
    let rid := jsGetOpt request "id"
    if jsEqStrOpt m "initialize" then ⟨[Emit.result rid], sessions, false⟩
    else if jsEqStrOpt m "tools/list" then ⟨[Emit.result rid], sessions, false⟩
    else if jsEqStrOpt m "tools/call" then
      match jsGetOpt request "params" with
      | none => ⟨[], sessions, true⟩
      | some Json.null => ⟨[], sessions, true⟩
      | some params =>
        let name := jsGetOpt params "name"
        let args := jsGetOpt params "arguments"
        let run (h : Except JsError (List Emit × Sessions)) : StepResult :=
          match h with
          | .ok (es, s2) => ⟨es, s2, false⟩
          | .error _ => ⟨[], sessions, true⟩
        if jsEqStrOpt name "analyze_project_request" then run (analyzeH rid args now sessions)
        else if jsEqStrOpt name "refine_specification" then
          run (handleRefineSpecification ai now rid args sessions)
        else if jsEqStrOpt name "export_specification" then run (exportH rid args now sessions)
        else if jsEqStrOpt name "select_tech_stack" then
          run (handleSelectTechStack rid args sessions)
        else if jsEqStrOpt name "select_modules" then
          run (handleSelectModules now rid args sessions)
        else ⟨[], sessions, false⟩
    else ⟨[], sessions, false⟩

/-! ## Helper lemmas -/

theorem mapSet_lookup_self (k : String) (v : SessionData) :
    ∀ m : Sessions, mapLookup (mapSet m k v) k = some v := by
  intro m
  induction m with
  | nil => simp [mapSet, mapLookup]
  | cons p rest ih =>
    obtain ⟨k2, v2⟩ := p
    by_cases h : k2 = k
    · subst h; simp [mapSet, mapLookup]
    · simp [mapSet, mapLookup, h, ih]
      simp [mapLookup] at ih
      exact ih

theorem mapSet_lookup_ne (k k2 : String) (v : SessionData) (hne : k2 ≠ k) :
    ∀ m : Sessions, mapLookup (mapSet m k v) k2 = mapLookup m k2 := by
  intro m
  induction m with
  | nil => simp [mapSet, mapLookup, Ne.symm hne]
  | cons p rest ih =>
    obtain ⟨k3, v3⟩ := p
    by_cases h : k3 = k
    · subst h
      simp [mapSet, mapLookup, Ne.symm hne]
    · by_cases h2 : k3 = k2
      · subst h2; simp [mapSet, mapLookup, h]
      · simp [mapSet, mapLookup, h, h2] at ih ⊢
        exact ih

theorem setFieldList_lookup_self (f : String) (v : Json) :
    ∀ ms : List (String × Json), objFind (setFieldList ms f v) f = some v := by
  intro ms
  induction ms with
  | nil => simp [setFieldList, objFind]
  | cons p rest ih =>
    obtain ⟨k, w⟩ := p
    by_cases h : k = f
    · subst h; simp [setFieldList, objFind]
    · simp [setFieldList, objFind, h] at ih ⊢
      exact ih

theorem setFieldList_lookup_ne (f g : String) (v : Json) (hne : g ≠ f) :
    ∀ ms : List (String × Json), objFind (setFieldList ms f v) g = objFind ms g := by
  intro ms
  induction ms with
  | nil => simp [setFieldList, objFind, Ne.symm hne]
  | cons p rest ih =>
    obtain ⟨k, w⟩ := p
    by_cases h : k = f
    · subst h
      simp [setFieldList, objFind, Ne.symm hne]
    · by_cases h2 : k = g
      · subst h2; simp [setFieldList, objFind, h]
      · simp [setFieldList, objFind, h, h2] at ih ⊢
        exact ih

theorem p2Run_ok_accept (t : JsonType) :
    ∀ (rs : List (Except String Json)) (le : Option String) (v : Json),
      p2Run t rs le = .ok v → p2Accept t v = true := by
  intro rs
  induction rs with
  | nil => intro le v h; simp [p2Run] at h
  | cons r rest ih =>
    intro le v h
    cases r with
    | ok w =>
      by_cases hw : p2Accept t w
      · simp [p2Run, hw] at h
        rw [← h]; exact hw
      · simp [p2Run, hw] at h
        exact ih _ _ h
    | error m =>
      simp [p2Run] at h
      exact ih _ _ h

theorem callAIAux_shift (oracle : Nat → Except JsError String) (d a : String) (n : Nat) :
    ∀ k, callAIAux oracle d a (k + 1) n = callAIAux (fun i => oracle (i + 1)) d a k n := by
  induction n with
  | zero => intro k; simp [callAIAux]
  | succ n ih =>
    intro k
    simp only [callAIAux]
    cases oracle (k + 1) <;> simp [ih (k + 1)]

/-! ## Claim theorems -/

/-- C7: for every input string — the empty string and arbitrarily long ones
included — `inferModuleCountFromDescription` returns an integer in [4, 15]:
whatever the keyword/word-count/platform adjustments produce, the final value
is clamped to that range. -/
theorem c7_module_count_bounds (description : String) :
    4 ≤ inferModuleCountFromDescription description ∧
    inferModuleCountFromDescription description ≤ 15 := by
  unfold inferModuleCountFromDescription
  exact ⟨le_max_left _ _, max_le (by norm_num) (min_le_left _ _)⟩

/-- C7 witness-style evaluations at the claim's edge inputs (the empty string
scores 5 - 1 = 4; a keyword-free short string the same). -/
theorem c7_edge_values :
    inferModuleCountFromDescription "" = 4 ∧
    inferModuleCountFromDescription "A simple todo app" = 4 := ⟨rfl, rfl⟩

/-- C8 counterexample: the claim fixes `simple` at exactly 4 modules, but the
`getModuleCount` of src/sds.js (lines 759-766), one of its two cited sources,
maps `simple` to 5; only the mcp-server variant returns 4. -/
theorem c8_simple_count_mismatch :
    sdsGetModuleCount "simple" = 5 ∧ mcpGetModuleCount "simple" "A simple todo app" = 4 :=
  ⟨rfl, rfl⟩

/-- C8 (amended): with an explicit complexity level the resolved count is a
constant independent of the description and the heuristic is not consulted:
`simple`/`medium`/`complex` give 4/8/12 in the MCP server's `getModuleCount`,
while the CLI variant in src/sds.js maps `simple` to 5 (its `medium`/`complex`
agree). -/
theorem c8_explicit_levels_fixed_counts :
    (∀ d, mcpGetModuleCount "simple" d = 4) ∧
    (∀ d, mcpGetModuleCount "medium" d = 8) ∧
    (∀ d, mcpGetModuleCount "complex" d = 12) ∧
    sdsGetModuleCount "simple" = 5 ∧
    sdsGetModuleCount "medium" = 8 ∧
    sdsGetModuleCount "complex" = 12 :=
  ⟨fun _ => rfl, fun _ => rfl, fun _ => rfl, rfl, rfl, rfl⟩

/-- Attempt oracle failing its first call with the exact `ValidationError` a
provider's `responseExtractor` raises on a malformed body, then succeeding. -/
def c2Oracle : Nat → Except JsError String := fun n =>
  if n == 0 then
    .error (.validation "Invalid response format from Claude API" "response_content")
  else .ok "retry-succeeded"

/-- C2 counterexample: `callAI`'s retry loop does not inspect the error kind —
after a first-attempt ValidationError (malformed response shape) it performs a
second attempt and returns its value, instead of surfacing the
ValidationError without retrying. -/
theorem c2_validation_error_is_retried :
    c2Oracle 0 = .error (.validation "Invalid response format from Claude API"
      "response_content") ∧
    callAI c2Oracle "Claude" "claude" 1 = .ok "retry-succeeded" := ⟨rfl, rfl⟩

/-- C2 (amended): `callAI` retries every failure kind uniformly —
a first-attempt failure of any kind (ValidationError included) with budget
left makes the loop continue exactly as a fresh call on the remaining
attempts; only when no budget is left is the failure surfaced, wrapped in an
`APIError` naming the provider. -/
theorem c2_all_failures_retried_uniformly (oracle : Nat → Except JsError String)
    (display apiName : String) (n : Nat) (e : JsError) (h : oracle 0 = .error e) :
    callAI oracle display apiName (n + 1) = callAI (fun i => oracle (i + 1)) display apiName n ∧
    callAI oracle display apiName 0 =
      .error (.api (display ++ " API failed: " ++ e.message) e apiName) := by
  constructor
  · show callAIAux oracle display apiName 0 (n + 1) = _
    simp only [callAIAux, h]
    exact callAIAux_shift oracle display apiName n 0
  · show callAIAux oracle display apiName 0 0 = _
    simp [callAIAux, h]

/-- C2 witness: the amended theorem applied to `c2Oracle` at retry budget 1. -/
theorem c2_retry_uniformity_witness :
    callAI c2Oracle "Claude" "claude" 1 =
      callAI (fun i => c2Oracle (i + 1)) "Claude" "claude" 0 ∧
    callAI c2Oracle "Claude" "claude" 0 =
      .error (.api "Claude API failed: Invalid response format from Claude API"
        (.validation "Invalid response format from Claude API" "response_content") "claude") :=
  c2_all_failures_retried_uniformly c2Oracle "Claude" "claude" 0
    (.validation "Invalid response format from Claude API" "response_content") rfl

/-- C3 counterexample: with expected shape `object`, part_002's
`parseJSONFromResponse` returns a bare array — strategy 1 parses `[1,2]` and
the acceptance test `typeof result === 'object'` is satisfied by arrays — so
the function does return an array where an object was demanded. -/
theorem c3_object_shape_admits_array :
    p2ParseJSONFromResponse "[1,2]" JsonType.object =
      .ok (Json.arr [Json.int 1, Json.int 2]) ∧
    (Json.arr [Json.int 1, Json.int 2]).isArr = true := ⟨rfl, rfl⟩

/-- C3 (amended): every success of part_002's `parseJSONFromResponse` passes
its acceptance test, so with expected shape `array` the result is always an
array, but with expected shape `object` it is only guaranteed to be an object
OR an array (the object test uses `typeof`, which arrays satisfy); on
exhaustion a ParsingError is raised. -/
theorem c3_shape_guarantee (response : String) (t : JsonType) (v : Json)
    (h : p2ParseJSONFromResponse response t = .ok v) :
    (t = JsonType.array → v.isArr = true) ∧ (v.isObj = true ∨ v.isArr = true) := by
  have hacc := p2Run_ok_accept t (p2Strategies response t) none v h
  cases t with
  | array =>
    cases v <;> simp_all [p2Accept, jsTruthy, Json.isArr, Json.isObj, typeofIsObject]
  | object =>
    cases v <;> simp_all [p2Accept, jsTruthy, Json.isArr, Json.isObj, typeofIsObject]

/-- C3 witness: the shape guarantee applied to a concrete array parse. -/
theorem c3_shape_guarantee_witness :
    (JsonType.array = JsonType.array → (Json.arr [Json.int 1]).isArr = true) ∧
    ((Json.arr [Json.int 1]).isObj = true ∨ (Json.arr [Json.int 1]).isArr = true) :=
  c3_shape_guarantee "[1]" JsonType.array (Json.arr [Json.int 1]) rfl

/-- C6 counterexample: wrapping `{"a": 1}` with nothing but a trailing comma
before the closing brace already defeats the mcp-server extractor — it strips
neither trailing commas nor comments nor control characters, so every
strategy's `JSON.parse` fails and a ParsingError is raised instead of the
value. -/
theorem c6_trailing_comma_not_roundtripped :
    (match mcpParseJSONFromResponse "\x7b\"a\": 1,\x7d" with
     | .error (.parsing _) => True
     | _ => False) := by trivial

/-- C6 (amended): the round-trip `extractJSON(wrap(v)) = v` holds whenever the
wrapped text still parses directly as JSON, and for representative fenced
code-block/prose wrappings; it does not hold for arbitrary combinations — the
mcp-server variant fails on a lone trailing comma (see the counterexample),
while part_002's strategy 3 does tolerate comments plus trailing commas inside
a code block. -/
theorem c6_roundtrip_restricted :
    (∀ (s : String) (v : Json), jsonParse s = some v →
      mcpParseJSONFromResponse s = .ok v) ∧
    mcpParseJSONFromResponse
        "Here is the JSON:\n```json\n\x7b\"a\": 1\x7d\n```\nHope this helps!" =
      .ok (Json.obj [("a", Json.int 1)]) ∧
    p2ParseJSONFromResponse "Result:\n```json\n\x7b\"a\": [1, 2], // comment\n\x7d\n```"
        JsonType.object =
      .ok (Json.obj [("a", Json.arr [Json.int 1, Json.int 2])]) := by
  refine ⟨fun s v h => ?_, rfl, rfl⟩
  simp [mcpParseJSONFromResponse, h]

/-- C6 witness: the direct-parse conjunct applied to a concrete document. -/
theorem c6_roundtrip_witness :
    mcpParseJSONFromResponse "[3]" = .ok (Json.arr [Json.int 3]) :=
  c6_roundtrip_restricted.1 "[3]" (Json.arr [Json.int 3]) rfl

/-- C10 counterexample: `select_tech_stack` on a platform without a catalog
entry (`desktop`) raises a ValidationError — not the ConfigurationError kind
the claim asserts (both do map to the same -32602 RPC code). -/
theorem c10_unsupported_platform_kind :
    handleSelectTechStack (some (Json.int 1))
      (some (Json.obj [("platform", Json.str "desktop")])) [] =
      .error (.validation "Unsupported platform: desktop" "platform") := rfl

/-- C10 (amended): an unsupported platform fails `select_tech_stack` with a
ValidationError-kind failure (fatal to the operation, nothing retries it),
while `analyze` does not fail at all on an unsupported explicit platform — its
tech-stack selection step silently falls back to the first web catalog
entry. -/
theorem c10_unsupported_platform_amended :
    (∀ (p : String) (id : Option Json) (sessions : Sessions),
      techStackOptions p = none →
      handleSelectTechStack id (some (Json.obj [("platform", Json.str p)])) sessions =
        .error (.validation ("Unsupported platform: " ++ p) "platform")) ∧
    (∀ p : String, techStackOptions p = none →
      analyzeSelectedTechStack p = ⟨1, "React/Next.js", "JavaScript/TypeScript"⟩) := by
  constructor
  · intro p id sessions h
    simp [handleSelectTechStack, jsGet, objFind, jsTemplate, h, bind, Except.bind, throw,
      throwThe, MonadExceptOf.throw]
  · intro p h
    simp [analyzeSelectedTechStack, h, webStacks, fallbackStack]

/-- C10 witness: both amended conjuncts instantiated at platform `desktop`. -/
theorem c10_unsupported_platform_witness :
    handleSelectTechStack none (some (Json.obj [("platform", Json.str "desktop")])) [] =
      .error (.validation "Unsupported platform: desktop" "platform") ∧
    analyzeSelectedTechStack "desktop" = ⟨1, "React/Next.js", "JavaScript/TypeScript"⟩ :=
  ⟨c10_unsupported_platform_amended.1 "desktop" none [] rfl,
   c10_unsupported_platform_amended.2 "desktop" rfl⟩

/-- C1: the read loop does NOT emit exactly one response per input line.  A
line that is not valid JSON reaches the catch block, whose `request?.id` reads
the `request` const that is scoped to the `try` block — a ReferenceError
inside the catch itself, so no error envelope is written and the async
callback's rejection escapes (`crashed = true`).  An unknown method and a
`tools/call` with an unrecognized tool name fall through every branch and
produce zero response lines (no crash).  This holds whatever the opaque
analyze/export handlers, AI oracle, clock, or session state are. -/
theorem c1_read_loop_drops_responses (analyzeH exportH : HandlerFn)
    (ai : String → Except JsError String) (now : String) (sessions : Sessions) :
    stdinOnData analyzeH exportH ai now sessions "hello" =
      ⟨[], sessions, true⟩ ∧
    stdinOnData analyzeH exportH ai now sessions
      "\x7b\"jsonrpc\":\"2.0\",\"id\":1,\"method\":\"no_such_method\"\x7d" =
      ⟨[], sessions, false⟩ ∧
    stdinOnData analyzeH exportH ai now sessions
      "\x7b\"id\":2,\"method\":\"tools/call\",\"params\":\x7b\"name\":\"bogus_tool\"\x7d\x7d" =
      ⟨[], sessions, false⟩ :=
  ⟨rfl, rfl, rfl⟩

/-! ### C4: batched module detailing -/

/-- A module whose `functions` member is the empty sequence. -/
def moduleHasNoFunctions (m : Json) : Bool :=
  match m with
  | Json.obj fs =>
    (match objFind fs "functions" with
     | some (Json.arr l) => l.isEmpty
     | _ => false)
  | _ => false

def c4AuthResp : String :=
  "\x7b\"name\": \"Auth\", \"description\": \"Auth module\", \"functions\": " ++
  "[\x7b\"name\": \"login\", \"description\": \"log a user in\", " ++
  "\"parameters\": \"user, pass\", \"returns\": \"token\"\x7d]\x7d"

def c4SearchResp : String :=
  "```json\n\x7b\"name\": \"Search\", \"description\": \"Search module\", \"functions\": " ++
  "[\x7b\"name\": \"query\", \"description\": \"run a query\", " ++
  "\"parameters\": \"q\", \"returns\": \"results\"\x7d]\x7d\n```"

/-- Per-module `callAI` outcomes for a batch of three where exactly the middle
module's invocation fails (a network failure after retries). -/
def c4Oracle : String → Except JsError String := fun p =>
  if p == sdsModulePrompt "Auth" then .ok c4AuthResp
  else if p == sdsModulePrompt "Payments" then .error (.network "boom" "endpoint" 500)
  else if p == sdsModulePrompt "Search" then .ok c4SearchResp
  else .error (.generic "unexpected prompt")

def c4AuthModule : Json :=
  Json.obj
    [("name", Json.str "Auth"), ("description", Json.str "Auth module"),
     ("functions", Json.arr
       [Json.obj
         [("name", Json.str "login"), ("description", Json.str "log a user in"),
          ("parameters", Json.str "user, pass"), ("returns", Json.str "token")]])]

def c4SearchModule : Json :=
  Json.obj
    [("name", Json.str "Search"), ("description", Json.str "Search module"),
     ("functions", Json.arr
       [Json.obj
         [("name", Json.str "query"), ("description", Json.str "run a query"),
          ("parameters", Json.str "q"), ("returns", Json.str "results")]])]

set_option maxRecDepth 8000 in
/-- C4: evaluated on the repaired embedding of src/sds.js
`generateSpecification` (the file as committed is a SyntaxError — the batch
worker's outer `try` has no catch, see `sdsGenerateSpecification`'s comment):
a batch of 3 where exactly one invocation fails yields exactly 3 modules, in
submission order, with the failing name replaced by the stub (generic
description referencing the name, empty functions), exactly one of the three
having an empty functions sequence, and no error raised (the embedding is
total). -/
theorem c4_batch_degrades_single_failure :
    sdsGenerateSpecification c4Oracle "a web app" (Json.str "stack")
        ["Auth", "Payments", "Search"] 3 =
      Json.obj
        [("title", Json.str "Project Specification"),
         ("description", Json.str "a web app"),
         ("techStack", Json.str "stack"),
         ("modules", Json.arr [c4AuthModule, stubModule "Payments", c4SearchModule])] ∧
    [c4AuthModule, stubModule "Payments", c4SearchModule].countP
        (fun m => moduleHasNoFunctions m) = 1 ∧
    stubModule "Payments" =
      Json.obj
        [("name", Json.str "Payments"),
         ("description", Json.str "Payments module functionality"),
         ("functions", Json.arr [])] :=
  ⟨rfl, rfl, rfl⟩

/-! ### C5: refine rejection leaves the session untouched -/

/-- C5: if the session exists, the refinement prompt builds, the provider
answers, and the parsed response fails the `modules`-is-an-array validation
(`refineSpecInvalid`), then `handleRefineSpecification` raises exactly the
ValidationError of line 683 — rethrown unchanged by the catch block — and
returns no updated session map: the `sessions.set` of line 689 sits after the
validation, so the stored specification is exactly the one held before the
call. -/
theorem c5_refine_rejects_and_preserves (ai : String → Except JsError String)
    (now : String) (id : Option Json) (sessions : Sessions) (args : Option Json)
    (sid : String) (sd : SessionData) (mr : Option Json) (names resp : String) (v : Json)
    (hargs1 : jsGet args "session_id" = .ok (some (Json.str sid)))
    (hargs2 : jsGet args "modification_request" = .ok mr)
    (hne : sid ≠ "")
    (hlook : mapLookup sessions sid = some sd)
    (hnames : moduleNamesOf sd.specification = .ok names)
    (hai : ai (refinePrompt (jsTemplate mr) names) = .ok resp)
    (hparse : mcpParseJSONFromResponse resp = .ok v)
    (hbad : refineSpecInvalid v = true) :
    handleRefineSpecification ai now id args sessions =
      .error (.validation "Invalid specification format received from AI modification"
        "specification") := by
  simp [handleRefineSpecification, hargs1, hargs2, sessionLookupJs,
    beq_eq_false_iff_ne.mpr hne, hlook, hnames, hai, hparse, hbad,
    bind, Except.bind, throw, throwThe, MonadExceptOf.throw]

def c9M1 : Json := Json.obj [("name", Json.str "Auth"), ("functions", Json.arr [])]

def c9M2 : Json := Json.obj [("name", Json.str "Pay"), ("functions", Json.arr [])]

def c9M3 : Json := Json.obj [("name", Json.str "Search"), ("functions", Json.arr [])]

def c9Spec : Json :=
  Json.obj
    [("title", Json.str "T"), ("techStack", Json.str "TS"),
     ("modules", Json.arr [c9M1, c9M2, c9M3])]

def c9Sd : SessionData := ⟨c9Spec, "web", "simple", true, "t0", none⟩

def c9Sessions : Sessions := [("sid1", c9Sd)]

def c5Ai : String → Except JsError String := fun _ => .ok "\x7b\"modules\": \"oops\"\x7d"

/-- C5 witness: a concrete session and a provider response whose `modules`
member is a string (not an array): the handler raises the ValidationError. -/
theorem c5_refine_witness :
    handleRefineSpecification c5Ai "t1" (some (Json.int 7))
      (some (Json.obj
        [("session_id", Json.str "sid1"),
         ("modification_request", Json.str "add a module")]))
      c9Sessions =
      .error (.validation "Invalid specification format received from AI modification"
        "specification") :=
  c5_refine_rejects_and_preserves c5Ai "t1" (some (Json.int 7)) c9Sessions
    (some (Json.obj
      [("session_id", Json.str "sid1"),
       ("modification_request", Json.str "add a module")]))
    "sid1" c9Sd (some (Json.str "add a module")) "Auth, Pay, Search"
    "\x7b\"modules\": \"oops\"\x7d" (Json.obj [("modules", Json.str "oops")])
    rfl rfl (by decide) rfl rfl rfl rfl rfl

/-! ### C9: select_modules is a pure in-order filter -/

/-- The pure content of the filter callback
`module => selected_modules.includes(module.name)`, defined for non-null
modules. -/
def keepPure (sel : List Json) (m : Json) : Bool := selIncludes sel (jsGetOpt m "name")

theorem keepModule_ok (sel : List Json) (m : Json) (hm : m ≠ Json.null) :
    keepModule sel m = .ok (keepPure sel m) := by
  cases m with
  | null => exact absurd rfl hm
  | bool b => rfl
  | num n => rfl
  | str s => rfl
  | arr l => rfl
  | obj ms => rfl

theorem jsFilterM_keepModule (sel : List Json) :
    ∀ ms : List Json, (∀ m ∈ ms, m ≠ Json.null) →
      jsFilterM (keepModule sel) ms = .ok (ms.filter (keepPure sel)) := by
  intro ms hnn
  induction ms with
  | nil => rfl
  | cons m rest ih =>
    have hm : m ≠ Json.null := hnn m (List.mem_cons_self m rest)
    have hrest : ∀ x ∈ rest, x ≠ Json.null := fun x hx => hnn x (List.mem_cons_of_mem m hx)
    simp only [jsFilterM, keepModule_ok sel m hm, ih hrest, List.filter,
      bind, Except.bind, pure]
    cases keepPure sel m <;> simp

/-- C9: `select_modules` with a live session whose specification is an object
carrying an array of (non-null) modules: an empty or non-array
`selected_modules` raises the ValidationError of line 851 (before any
mutation), and otherwise the handler succeeds, storing a specification equal
to the old one on every field except `modules`, which becomes exactly the
original modules whose `name` appears in the selected list, in original
relative order (`List.filter`), with length the count of matches; sessions
other than the targeted one are untouched.  The embedding is functional, so
the input specification value itself is never mutated — the new value is
built by spread (`jsSpreadSet`). -/
theorem c9_select_modules_pure_filter (now : String) (id : Option Json)
    (sessions : Sessions) (args : Option Json) (sid : String) (sd : SessionData)
    (sfields : List (String × Json)) (ms : List Json) (selv : Json)
    (hargs1 : jsGet args "session_id" = .ok (some (Json.str sid)))
    (hargs2 : jsGet args "selected_modules" = .ok (some selv))
    (hne : sid ≠ "")
    (hlook : mapLookup sessions sid = some sd)
    (hspec : sd.specification = Json.obj sfields)
    (hmods : objFind sfields "modules" = some (Json.arr ms))
    (hnn : ∀ m ∈ ms, m ≠ Json.null) :
    (selectedInvalid (some selv) = true →
      handleSelectModules now id args sessions =
        .error (.validation "Please provide a valid array of selected module names."
          "selected_modules")) ∧
    (∀ sel : List Json, selv = Json.arr sel → sel ≠ [] →
      handleSelectModules now id args sessions =
        .ok ([Emit.result id],
          mapSet sessions sid
            { sd with
              specification :=
                Json.obj (setFieldList sfields "modules" (Json.arr (ms.filter (keepPure sel)))),
              last_modified := some now }) ∧
      objFind (setFieldList sfields "modules" (Json.arr (ms.filter (keepPure sel)))) "modules" =
        some (Json.arr (ms.filter (keepPure sel))) ∧
      (∀ f, f ≠ "modules" →
        objFind (setFieldList sfields "modules" (Json.arr (ms.filter (keepPure sel)))) f =
          objFind sfields f) ∧
      (ms.filter (keepPure sel)).length = ms.countP (keepPure sel) ∧
      (∀ sid2, sid2 ≠ sid →
        mapLookup (mapSet sessions sid
          { sd with
            specification :=
              Json.obj (setFieldList sfields "modules" (Json.arr (ms.filter (keepPure sel)))),
            last_modified := some now }) sid2 = mapLookup sessions sid2)) := by
  constructor
  · intro hbad
    simp only [handleSelectModules, bind, Except.bind, hargs1, hargs2]
    simp [sessionLookupJs, hne, hlook, hbad,
      throw, throwThe, MonadExceptOf.throw]
  · intro sel hsel hnil
    subst hsel
    have hinv : selectedInvalid (some (Json.arr sel)) = false := by
      simp [selectedInvalid, hnil]
    refine ⟨?_, setFieldList_lookup_self _ _ _, fun f hf => setFieldList_lookup_ne _ _ _ hf _,
      (List.countP_eq_length_filter _ _).symm, fun sid2 h2 => mapSet_lookup_ne _ _ _ h2 _⟩
    simp only [handleSelectModules, bind, Except.bind, hargs1, hargs2]
    simp [sessionLookupJs, hne, hlook, hinv, hspec, hmods,
      jsFilterM_keepModule sel ms hnn, jsGet, jsSpreadSet,
      pure, Except.pure, throw, throwThe, MonadExceptOf.throw]

def c9Args : Json :=
  Json.obj
    [("session_id", Json.str "sid1"),
     ("selected_modules", Json.arr [Json.str "Auth", Json.str "Search"])]

/-- C9 witness: the success case at a concrete session — `Pay` is filtered
out, `Auth` and `Search` are kept in order, and the session map is updated in
place. -/
theorem c9_select_modules_witness :
    handleSelectModules "t2" (some (Json.int 8)) (some c9Args) c9Sessions =
      .ok ([Emit.result (some (Json.int 8))],
        mapSet c9Sessions "sid1"
          { c9Sd with
            specification :=
              Json.obj (setFieldList
                [("title", Json.str "T"), ("techStack", Json.str "TS"),
                 ("modules", Json.arr [c9M1, c9M2, c9M3])]
                "modules"
                (Json.arr ([c9M1, c9M2, c9M3].filter
                  (keepPure [Json.str "Auth", Json.str "Search"])))),
            last_modified := some "t2" }) :=
  ((c9_select_modules_pure_filter "t2" (some (Json.int 8)) c9Sessions (some c9Args)
      "sid1" c9Sd
      [("title", Json.str "T"), ("techStack", Json.str "TS"),
       ("modules", Json.arr [c9M1, c9M2, c9M3])]
      [c9M1, c9M2, c9M3] (Json.arr [Json.str "Auth", Json.str "Search"])
      rfl rfl (by decide) rfl rfl rfl
      (by intro m hm; fin_cases hm <;> exact fun h => Json.noConfusion h)).2
    [Json.str "Auth", Json.str "Search"] rfl (by simp)).1
